import Mathlib

/-!
Shallow embedding of the sprite-touch-control controller (final variant,
src/script.js). World coordinates are rationals; the per-frame update
`updatePosition`, the input handlers `setTarget`, `startJump`, `startThrow`,
the camera clamp from `draw`, and the frame-selection logic from `draw` are
translated directly from the source. The simpler variants (part_000,
part_001) share `determineFacing` verbatim with the final file.
-/

/-- Constant `cellSize = 80`. -/
def cellSize : ℚ := 80

/-- Constant `WORLD_COLS = 60`. -/
def WORLD_COLS : ℚ := 60

/-- Constant `WORLD_ROWS = 12`. -/
def WORLD_ROWS : ℚ := 12

/-- Ground row centre, `groundY = (WORLD_ROWS - 2) * cellSize + cellSize / 2`. -/
def groundY : ℚ := (WORLD_ROWS - 2) * cellSize + cellSize / 2

/-- World width in pixels, `WORLD_COLS * cellSize`, as computed in
`clampToWorld` and `draw`. -/
def worldWidth : ℚ := WORLD_COLS * cellSize

/-- World height in pixels, `WORLD_ROWS * cellSize`, as computed in `draw`. -/
def worldHeight : ℚ := WORLD_ROWS * cellSize

/-- Constant `speed = 5` (pixels per frame). -/
def speed : ℚ := 5

/-- Constant `gravity = 1.2`. -/
def gravity : ℚ := 1.2

/-- Constant `jumpStrength = 22`. -/
def jumpStrength : ℚ := 22

/-- The four values of the `facing` string variable. -/
inductive Facing
  | front
  | back
  | left
  | right
deriving DecidableEq

/-- The `star` projectile object: `{ active, x, y, vx, size }`. -/
structure StarState where
  active : Bool
  x : ℚ
  y : ℚ
  vx : ℚ
  size : ℚ
deriving DecidableEq

/-- The mutable sprite state of script.js: position `(x, y)`, target
`(targetX, targetY)`, `facing`, the jump flags `isJumping`/`vy`, the throw
flags `isThrowing`/`throwTimer`, and the projectile `star`. -/
structure SpriteState where
  x : ℚ
  y : ℚ
  targetX : ℚ
  targetY : ℚ
  facing : Facing
  isJumping : Bool
  vy : ℚ
  isThrowing : Bool
  throwTimer : ℚ
  star : StarState
deriving DecidableEq

/-- Initial state: `x = (WORLD_COLS / 2) * cellSize`, `y = groundY`, target
at the start position, facing front, no jump/throw in progress, and the
inactive initial `star` literal. -/
def initState : SpriteState :=
  { x := WORLD_COLS / 2 * cellSize
    y := groundY
    targetX := WORLD_COLS / 2 * cellSize
    targetY := groundY
    facing := Facing.front
    isJumping := false
    vy := 0
    isThrowing := false
    throwTimer := 0
    star := { active := false, x := 0, y := 0, vx := 0, size := 0.4 * cellSize } }

/-- Function `determineFacing(dx, dy)`: left/right when horizontal displacement
dominates strictly, else front/back. -/
def determineFacing (dx dy : ℚ) : Facing :=
  if |dx| > |dy| then (if dx ≥ 0 then Facing.right else Facing.left)
  else (if dy ≥ 0 then Facing.front else Facing.back)

/-- Function `clampToWorld(tx, ty)`: clamp X into `[cellSize, worldWidth - cellSize]`
and return Y fixed at `groundY` (the `ty` argument is ignored by the source). -/
def clampToWorld (tx ty : ℚ) : ℚ × ℚ :=
  (min (max tx cellSize) (worldWidth - cellSize), groundY)

/-- Handler `setTarget(e)` with the pointer position already converted to the world
coordinate `worldX = camX + screenX`: clamps, stores the target, and sets
`facing = dx >= 0 ? 'right' : 'left'`. -/
def setTarget (s : SpriteState) (worldX : ℚ) : SpriteState :=
  let clamped := clampToWorld worldX groundY
  let dx := clamped.1 - s.x
  { s with
    targetX := clamped.1
    targetY := clamped.2
    facing := if dx ≥ 0 then Facing.right else Facing.left }

/-- Handler `startJump()`: no-op when already jumping, else set `isJumping` and
`vy = -jumpStrength`. -/
def startJump (s : SpriteState) : SpriteState :=
  if s.isJumping then s
  else { s with isJumping := true, vy := -jumpStrength }

/-- Handler `startThrow()`: no-op when already throwing, else set `isThrowing`,
reset `throwTimer`, and (re)spawn the star at the sprite with velocity given
by the current facing. The guard tests `isThrowing` only — not `star.active`. -/
def startThrow (s : SpriteState) : SpriteState :=
  if s.isThrowing then s
  else
    { s with
      isThrowing := true
      throwTimer := 0
      star :=
        { active := true
          x := s.x
          y := s.y - cellSize * 0.3
          vx := if s.facing = Facing.left then -12 else 12
          size := s.star.size } }

/-- First block of `updatePosition()`: horizontal seek toward `targetX`
(step of `speed` along the sign of `dx`, or snap when within `speed`),
facing update while moving, then `clampToWorld` which also fixes `y`. -/
def moveStep (s : SpriteState) : SpriteState :=
  let dx := s.targetX - s.x
  let absDx := |dx|
  let facing1 := if absDx > 0 then (if dx ≥ 0 then Facing.right else Facing.left) else s.facing
  let x1 := if absDx > speed then s.x + dx / absDx * speed else s.targetX
  let clamped := clampToWorld x1 s.y
  { s with facing := facing1, x := clamped.1, y := clamped.2 }

/-- Second block of `updatePosition()`: while jumping, `y += vy; vy += gravity`,
then land (snap to ground, zero velocity, clear the flag) once `y >= groundY`. -/
def jumpStep (s : SpriteState) : SpriteState :=
  if s.isJumping then
    if s.y + s.vy ≥ groundY then { s with y := groundY, isJumping := false, vy := 0 }
    else { s with y := s.y + s.vy, vy := s.vy + gravity }
  else s

/-- Third block of `updatePosition()`: while the star is active,
`star.x += star.vx`, deactivating once `star.x < 0 || star.x > WORLD_COLS * cellSize`. -/
def starStep (st : StarState) : StarState :=
  if st.active then
    if st.x + st.vx < 0 ∨ st.x + st.vx > WORLD_COLS * cellSize then
      { st with x := st.x + st.vx, active := false }
    else { st with x := st.x + st.vx }
  else st

/-- Function `updatePosition()`: the three blocks in source order. -/
def updatePosition (s : SpriteState) : SpriteState :=
  let s1 := moveStep s
  let s2 := jumpStep s1
  { s2 with star := starStep s2.star }

/-- Camera X recomputation from `draw`:
`camX = Math.max(0, Math.min(x - canvas.width / 2, worldWidth - canvas.width))`. -/
def cameraX (x viewportW : ℚ) : ℚ :=
  max 0 (min (x - viewportW / 2) (worldWidth - viewportW))

/-- Camera Y recomputation from `draw`:
`camY = Math.max(0, Math.min(y - canvas.height / 2, worldHeight - canvas.height))`. -/
def cameraY (y viewportH : ℚ) : ℚ :=
  max 0 (min (y - viewportH / 2) (worldHeight - viewportH))

/-- The `images` object: one frame list per animation category; individual
frames are abstracted as identifiers. -/
structure FrameStore where
  front : List Nat
  back : List Nat
  side : List Nat
  jump : List Nat
  throwFrames : List Nat
deriving DecidableEq

/-- The frame-selection chain of `draw`: throw (when its list is nonempty)
takes precedence, then jump (when its list is nonempty), then the directional
lists indexed by `frameIndex % frames.length`. A JavaScript access
`frames[frameIndex % frames.length]` on an empty list yields `undefined`,
modelled here as `none`. -/
def selectFrame (images : FrameStore) (isThrowing isJumping : Bool)
    (facing : Facing) (frameIndex : Nat) : Option Nat :=
  if isThrowing = true ∧ 0 < images.throwFrames.length then images.throwFrames[0]?
  else if isJumping = true ∧ 0 < images.jump.length then images.jump[0]?
  else if facing = Facing.right ∨ facing = Facing.left then
    images.side[frameIndex % images.side.length]?
  else if facing = Facing.front then
    images.front[frameIndex % images.front.length]?
  else
    images.back[frameIndex % images.back.length]?

/-- States reachable from the initial state under any interleaving of frame
ticks and input handlers. -/
inductive Reachable : SpriteState → Prop
  | init : Reachable initState
  | tick {s} : Reachable s → Reachable (updatePosition s)
  | target {s} (worldX : ℚ) : Reachable s → Reachable (setTarget s worldX)
  | jump {s} : Reachable s → Reachable (startJump s)
  | toss {s} : Reachable s → Reachable (startThrow s)

/-- A state with a star still in flight after the throw pose has ended:
`isThrowing` has been reset but `star.active` is still true. -/
def flightState : SpriteState :=
  { initState with
    facing := Facing.right
    isThrowing := false
    star := { active := true, x := 1000, y := 816, vx := 12, size := 32 } }

/-- C1, counterexample: in `flightState` the projectile is active, yet
`startThrow` moves the projectile back to the sprite position — the guard is
`isThrowing`, not `star.active`, so an active projectile is respawned. -/
theorem startThrow_respawns_active_star :
    flightState.star.active = true ∧
    (startThrow flightState).star.x ≠ flightState.star.x := by
  refine ⟨rfl, ?_⟩
  norm_num [startThrow, flightState, initState, WORLD_COLS, cellSize]

/-- C1, amended: a throw request while the throw pose is still in progress
(`isThrowing = true`) is a silent no-op leaving the whole state, projectile
included, unchanged. -/
theorem startThrow_noop_of_throwing (s : SpriteState) (h : s.isThrowing = true) :
    startThrow s = s := by
  simp [startThrow, h]

/-- Witness for C1's amended theorem at a concrete throwing state. -/
theorem startThrow_noop_witness :
    { initState with isThrowing := true }.isThrowing = true ∧
      startThrow { initState with isThrowing := true } =
        { initState with isThrowing := true } :=
  ⟨rfl, startThrow_noop_of_throwing { initState with isThrowing := true } rfl⟩

/-- C5: when the viewport is strictly wider (resp. taller) than the world,
the recomputed camera offset is 0 on that axis, for every actor position. -/
theorem camera_zero_of_small_world (px py w h : ℚ)
    (hw : worldWidth < w) (hh : worldHeight < h) :
    cameraX px w = 0 ∧ cameraY py h = 0 := by
  constructor
  · apply max_eq_left
    calc min (px - w / 2) (worldWidth - w) ≤ worldWidth - w := min_le_right _ _
    _ ≤ 0 := by linarith
  · apply max_eq_left
    calc min (py - h / 2) (worldHeight - h) ≤ worldHeight - h := min_le_right _ _
    _ ≤ 0 := by linarith

/-- Witness for C5 at a concrete position and viewport. -/
theorem camera_zero_witness :
    worldWidth < 5000 ∧ worldHeight < 1000 ∧
      cameraX 2400 5000 = 0 ∧ cameraY 840 1000 = 0 := by
  refine ⟨by norm_num [worldWidth, WORLD_COLS, cellSize],
    by norm_num [worldHeight, WORLD_ROWS, cellSize], ?_⟩
  exact camera_zero_of_small_world 2400 840 5000 1000
    (by norm_num [worldWidth, WORLD_COLS, cellSize])
    (by norm_num [worldHeight, WORLD_ROWS, cellSize])

/-- C6: complete characterisation of `determineFacing`: Right iff horizontal
dominance with `dx ≥ 0`, Left iff dominance with `dx < 0`, Front iff
`|dx| ≤ |dy|` with `dy ≥ 0`, Back iff `|dx| ≤ |dy|` with `dy < 0`; a tie
`|dx| = |dy|` falls to the vertical branch. -/
theorem determineFacing_characterisation (dx dy : ℚ) :
    (determineFacing dx dy = Facing.right ↔ |dx| > |dy| ∧ dx ≥ 0) ∧
    (determineFacing dx dy = Facing.left ↔ |dx| > |dy| ∧ dx < 0) ∧
    (determineFacing dx dy = Facing.front ↔ |dx| ≤ |dy| ∧ dy ≥ 0) ∧
    (determineFacing dx dy = Facing.back ↔ |dx| ≤ |dy| ∧ dy < 0) := by
  unfold determineFacing
  split
  · rename_i h1
    split
    · rename_i h2
      simp_all [le_of_lt, not_lt.mp]
    · rename_i h2
      constructor
      · simp [h1, h2]
      constructor
      · simp [h1, not_le.mp h2]
      constructor
      · simp [not_le.mpr h1]
      · simp [not_le.mpr h1]
  · rename_i h1
    have h1' : |dx| ≤ |dy| := not_lt.mp h1
    split
    · rename_i h2
      simp_all [not_lt.mpr h1']
    · rename_i h2
      simp_all [not_lt.mpr h1', not_le.mp h2]

/-! ### Projection lemmas for the three blocks of `updatePosition` -/

theorem moveStep_x_def (s : SpriteState) :
    (moveStep s).x =
      (clampToWorld
        (if |s.targetX - s.x| > speed then
          s.x + (s.targetX - s.x) / |s.targetX - s.x| * speed
        else s.targetX) s.y).1 := rfl

theorem moveStep_y (s : SpriteState) : (moveStep s).y = groundY := rfl

theorem moveStep_vy (s : SpriteState) : (moveStep s).vy = s.vy := rfl

theorem moveStep_isJumping (s : SpriteState) : (moveStep s).isJumping = s.isJumping := rfl

theorem moveStep_star (s : SpriteState) : (moveStep s).star = s.star := rfl

theorem moveStep_targetX (s : SpriteState) : (moveStep s).targetX = s.targetX := rfl

theorem jumpStep_x (s : SpriteState) : (jumpStep s).x = s.x := by
  unfold jumpStep
  split
  · split <;> rfl
  · rfl

theorem jumpStep_targetX (s : SpriteState) : (jumpStep s).targetX = s.targetX := by
  unfold jumpStep
  split
  · split <;> rfl
  · rfl

theorem jumpStep_star (s : SpriteState) : (jumpStep s).star = s.star := by
  unfold jumpStep
  split
  · split <;> rfl
  · rfl

theorem updatePosition_x (s : SpriteState) : (updatePosition s).x = (moveStep s).x :=
  jumpStep_x (moveStep s)

theorem updatePosition_targetX (s : SpriteState) :
    (updatePosition s).targetX = s.targetX :=
  jumpStep_targetX (moveStep s)

theorem updatePosition_star (s : SpriteState) :
    (updatePosition s).star = starStep s.star := by
  show starStep (jumpStep (moveStep s)).star = starStep s.star
  rw [jumpStep_star, moveStep_star]

theorem updatePosition_y_ground (s : SpriteState)
    (h : (updatePosition s).isJumping = false) : (updatePosition s).y = groundY := by
  show (jumpStep (moveStep s)).y = groundY
  have h' : (jumpStep (moveStep s)).isJumping = false := h
  unfold jumpStep at h' ⊢
  split_ifs at h' ⊢ with h1 h2
  · rfl
  · exact absurd h' (by simp [h1])
  · exact moveStep_y s

theorem updatePosition_y_air (s : SpriteState)
    (h : (updatePosition s).isJumping = true) : (updatePosition s).y = groundY + s.vy := by
  show (jumpStep (moveStep s)).y = groundY + s.vy
  have h' : (jumpStep (moveStep s)).isJumping = true := h
  unfold jumpStep at h' ⊢
  split_ifs at h' ⊢ with h1 h2
  · show (moveStep s).y + (moveStep s).vy = groundY + s.vy
    rw [moveStep_y, moveStep_vy]
  · exact absurd h' h1

/-- The evolution of the pair `(vy, isJumping)` across one `updatePosition`
tick: since the re-clamp forces `y = groundY` before the jump block, this pair
alone determines the next jump state. -/
def vjStep (p : ℚ × Bool) : ℚ × Bool :=
  if p.2 = true then
    (if groundY + p.1 ≥ groundY then (0, false) else (p.1 + gravity, true))
  else p

theorem updatePosition_vj (s : SpriteState) :
    ((updatePosition s).vy, (updatePosition s).isJumping) = vjStep (s.vy, s.isJumping) := by
  show ((jumpStep (moveStep s)).vy, (jumpStep (moveStep s)).isJumping) = _
  unfold jumpStep vjStep
  dsimp only
  rw [moveStep_y, moveStep_vy, moveStep_isJumping]
  split_ifs with h1 h2
  · rfl
  · simp [h1]
  · rfl

theorem updatePosition_vj_iter (s : SpriteState) (k : ℕ) :
    ((updatePosition^[k] s).vy, (updatePosition^[k] s).isJumping) =
      vjStep^[k] (s.vy, s.isJumping) := by
  induction k with
  | zero => rfl
  | succ n ih =>
    rw [Function.iterate_succ_apply', Function.iterate_succ_apply',
      updatePosition_vj, ih]

theorem updatePosition_star_iter (s : SpriteState) (k : ℕ) :
    (updatePosition^[k] s).star = starStep^[k] s.star := by
  induction k with
  | zero => rfl
  | succ n ih =>
    rw [Function.iterate_succ_apply', Function.iterate_succ_apply',
      updatePosition_star, ih]

/-! ### Clamp facts -/

theorem clamp_fst_mem (t y : ℚ) :
    cellSize ≤ (clampToWorld t y).1 ∧ (clampToWorld t y).1 ≤ worldWidth - cellSize := by
  constructor
  · exact le_min (le_max_right _ _) (by norm_num [worldWidth, WORLD_COLS, cellSize])
  · exact min_le_right _ _

theorem clamp_fst_id (t y : ℚ) (h1 : cellSize ≤ t) (h2 : t ≤ worldWidth - cellSize) :
    (clampToWorld t y).1 = t := by
  simp [clampToWorld, max_eq_left h1, min_eq_left h2]

/-- C10: `clampToWorld` ignores its `ty` argument and always returns
`groundY` for the Y component; consequently after any `updatePosition` call
the Y position is `groundY` plus that tick's pre-gravity vertical velocity
while still jumping, and exactly `groundY` when not jumping. -/
theorem clampToWorld_forces_ground :
    (∀ tx ty : ℚ, (clampToWorld tx ty).2 = groundY) ∧
    ∀ s : SpriteState,
      ((updatePosition s).isJumping = true → (updatePosition s).y = groundY + s.vy) ∧
      ((updatePosition s).isJumping = false → (updatePosition s).y = groundY) :=
  ⟨fun _ _ => rfl, fun s => ⟨updatePosition_y_air s, updatePosition_y_ground s⟩⟩

/-! ### C3: jump round-trip -/

set_option maxRecDepth 4000 in
theorem vjStep_jump_run : vjStep^[20] (-22, true) = (0, false) := by
  norm_num [Function.iterate_succ_apply, vjStep, groundY, gravity, WORLD_ROWS, cellSize]

/-- C3: starting a jump from ground level (`startJump` sets
`vy = -jumpStrength`), repeated ticks with the positive gravity constant
eventually reach a state with `y = groundY` exactly, `vy = 0`, and the
jumping flag cleared (here after 20 ticks). -/
theorem jump_roundtrip (s : SpriteState) (hj : s.isJumping = false)
    (hy : s.y = groundY) :
    0 < gravity ∧ ∃ n : ℕ, 0 < n ∧
      (updatePosition^[n] (startJump s)).y = groundY ∧
      (updatePosition^[n] (startJump s)).vy = 0 ∧
      (updatePosition^[n] (startJump s)).isJumping = false := by
  have hstart : ((startJump s).vy, (startJump s).isJumping) = (-22, true) := by
    norm_num [startJump, hj, jumpStrength]
  have hiter := updatePosition_vj_iter (startJump s) 20
  rw [hstart, vjStep_jump_run] at hiter
  have hvy : (updatePosition^[20] (startJump s)).vy = 0 := congrArg Prod.fst hiter
  have hjf : (updatePosition^[20] (startJump s)).isJumping = false :=
    congrArg Prod.snd hiter
  refine ⟨by norm_num [gravity], 20, by norm_num, ?_, hvy, hjf⟩
  have h19 : updatePosition^[20] (startJump s) =
      updatePosition (updatePosition^[19] (startJump s)) :=
    Function.iterate_succ_apply' updatePosition 19 (startJump s)
  rw [h19] at hjf ⊢
  exact updatePosition_y_ground _ hjf

/-- Witness for C3 at the initial state. -/
theorem jump_roundtrip_witness :
    initState.isJumping = false ∧ initState.y = groundY ∧
      (0 < gravity ∧ ∃ n : ℕ, 0 < n ∧
        (updatePosition^[n] (startJump initState)).y = groundY ∧
        (updatePosition^[n] (startJump initState)).vy = 0 ∧
        (updatePosition^[n] (startJump initState)).isJumping = false) :=
  ⟨rfl, rfl, jump_roundtrip initState rfl rfl⟩

/-! ### Preservation lemmas for the input handlers -/

theorem startJump_x (s : SpriteState) : (startJump s).x = s.x := by
  unfold startJump
  split <;> rfl

theorem startJump_y (s : SpriteState) : (startJump s).y = s.y := by
  unfold startJump
  split <;> rfl

theorem startThrow_x (s : SpriteState) : (startThrow s).x = s.x := by
  unfold startThrow
  split <;> rfl

theorem startThrow_y (s : SpriteState) : (startThrow s).y = s.y := by
  unfold startThrow
  split <;> rfl

theorem startThrow_isJumping (s : SpriteState) :
    (startThrow s).isJumping = s.isJumping := by
  unfold startThrow
  split <;> rfl

/-- C8: every state reachable from the initial state keeps `x` inside
`[cellSize, worldWidth - cellSize]`, and has `y = groundY` whenever the
actor is not jumping. -/
theorem reachable_invariant (s : SpriteState) (h : Reachable s) :
    (cellSize ≤ s.x ∧ s.x ≤ worldWidth - cellSize) ∧
    (s.isJumping = false → s.y = groundY) := by
  induction h with
  | init =>
    refine ⟨⟨?_, ?_⟩, fun _ => rfl⟩ <;>
      norm_num [initState, cellSize, worldWidth, WORLD_COLS]
  | tick _ ih =>
    refine ⟨?_, fun hf => updatePosition_y_ground _ hf⟩
    rw [updatePosition_x, moveStep_x_def]
    exact clamp_fst_mem _ _
  | target worldX _ ih =>
    exact ih
  | @jump s hr ih =>
    unfold startJump
    split_ifs with hjj
    · exact ih
    · refine ⟨ih.1, fun hf => ?_⟩
      simp at hf
  | @toss s hr ih =>
    unfold startThrow
    split_ifs <;> exact ih

/-- Witness for C8 at the initial state. -/
theorem reachable_invariant_witness :
    (cellSize ≤ initState.x ∧ initState.x ≤ worldWidth - cellSize) ∧
    (initState.isJumping = false → initState.y = groundY) :=
  reachable_invariant initState Reachable.init

/-! ### C7: setTarget -/

/-- C7, counterexample: a pointer tap whose world point clamps exactly to the
actor's current position (`dx = 0`, `dy = 0`) yields facing Right, not Front
— `setTarget` never applies the vertical branch of the dominance rule. -/
theorem setTarget_center_faces_right :
    (setTarget initState (WORLD_COLS / 2 * cellSize)).targetX = initState.x ∧
    (setTarget initState (WORLD_COLS / 2 * cellSize)).targetY = initState.y ∧
    (setTarget initState (WORLD_COLS / 2 * cellSize)).facing = Facing.right ∧
    Facing.right ≠ Facing.front := by
  refine ⟨?_, rfl, ?_, by decide⟩
  · norm_num [setTarget, clampToWorld, initState, cellSize, worldWidth, WORLD_COLS]
  · norm_num [setTarget, clampToWorld, initState, cellSize, worldWidth, WORLD_COLS]

/-- C7, amended: `setTarget` stores the clamped target (X clamped into
`[cellSize, worldWidth - cellSize]`, Y fixed at `groundY`), leaves the
position unchanged, and recomputes facing from the horizontal difference
alone: Right iff `dx ≥ 0`, else Left; in particular `dx = 0` gives Right. -/
theorem setTarget_spec (s : SpriteState) (worldX : ℚ) :
    (setTarget s worldX).targetX = min (max worldX cellSize) (worldWidth - cellSize) ∧
    (setTarget s worldX).targetY = groundY ∧
    (setTarget s worldX).facing =
      (if (setTarget s worldX).targetX - s.x ≥ 0 then Facing.right else Facing.left) ∧
    (setTarget s worldX).x = s.x ∧
    (setTarget s worldX).y = s.y :=
  ⟨rfl, rfl, rfl, rfl, rfl⟩

/-! ### C9: frame selection on missing assets -/

/-- C9: with no frames loaded (every category empty) and no overriding
action, the selection for the default Front facing dereferences
`images.front[0 % 0]`, i.e. yields `undefined` (`none`) — the source has no
fallback category and no skip, so the subsequent `img.width` access throws. -/
theorem selectFrame_empty_front_undefined :
    selectFrame { front := [], back := [], side := [], jump := [], throwFrames := [] }
      false false Facing.front 0 = none := by
  decide

/-! ### C2: convergence of the horizontal seek -/

theorem updatePosition_seek (s : SpriteState)
    (hx1 : cellSize ≤ s.x) (hx2 : s.x ≤ worldWidth - cellSize)
    (ht1 : cellSize ≤ s.targetX) (ht2 : s.targetX ≤ worldWidth - cellSize) :
    |s.targetX - (updatePosition s).x| = max (|s.targetX - s.x| - speed) 0 ∧
    cellSize ≤ (updatePosition s).x ∧ (updatePosition s).x ≤ worldWidth - cellSize := by
  have hsp : (0:ℚ) < speed := by norm_num [speed]
  rw [updatePosition_x, moveStep_x_def]
  by_cases h5 : |s.targetX - s.x| > speed
  · rw [if_pos h5]
    have hd0 : (0:ℚ) < |s.targetX - s.x| := lt_trans hsp h5
    have hne : s.targetX - s.x ≠ 0 := by
      intro h0
      rw [h0] at hd0
      simp at hd0
    rcases hne.lt_or_lt with hneg | hpos
    · have habs : |s.targetX - s.x| = -(s.targetX - s.x) := abs_of_neg hneg
      have hdiv : (s.targetX - s.x) / |s.targetX - s.x| = -1 := by
        rw [habs, div_neg, div_self hne]
      have h5' : -(s.targetX - s.x) > speed := by
        rw [← habs]
        exact h5
      have b1 : cellSize ≤ s.x + -1 * speed := by linarith
      have b2 : s.x + -1 * speed ≤ worldWidth - cellSize := by linarith
      rw [hdiv, clamp_fst_id _ _ b1 b2]
      refine ⟨?_, b1, b2⟩
      have harg : s.targetX - (s.x + -1 * speed) < 0 := by linarith
      rw [abs_of_neg harg, max_eq_left (by linarith), habs]
      ring
    · have habs : |s.targetX - s.x| = s.targetX - s.x := abs_of_pos hpos
      have hdiv : (s.targetX - s.x) / |s.targetX - s.x| = 1 := by
        rw [habs, div_self hne]
      have h5' : s.targetX - s.x > speed := by
        rw [← habs]
        exact h5
      have b1 : cellSize ≤ s.x + 1 * speed := by linarith
      have b2 : s.x + 1 * speed ≤ worldWidth - cellSize := by linarith
      rw [hdiv, clamp_fst_id _ _ b1 b2]
      refine ⟨?_, b1, b2⟩
      have harg : 0 ≤ s.targetX - (s.x + 1 * speed) := by linarith
      rw [abs_of_nonneg harg, max_eq_left (by linarith), habs]
      ring
  · rw [if_neg h5, clamp_fst_id _ _ ht1 ht2]
    refine ⟨?_, ht1, ht2⟩
    rw [sub_self, abs_zero, max_eq_right (by linarith [not_lt.mp h5])]

theorem updatePosition_seek_iter (s : SpriteState)
    (hx1 : cellSize ≤ s.x) (hx2 : s.x ≤ worldWidth - cellSize)
    (ht1 : cellSize ≤ s.targetX) (ht2 : s.targetX ≤ worldWidth - cellSize) (k : ℕ) :
    |s.targetX - (updatePosition^[k] s).x| =
      max (|s.targetX - s.x| - speed * k) 0 ∧
    cellSize ≤ (updatePosition^[k] s).x ∧
    (updatePosition^[k] s).x ≤ worldWidth - cellSize ∧
    (updatePosition^[k] s).targetX = s.targetX := by
  have hsp : (0:ℚ) < speed := by norm_num [speed]
  induction k with
  | zero =>
    refine ⟨?_, hx1, hx2, rfl⟩
    show |s.targetX - s.x| = max (|s.targetX - s.x| - speed * ((0:ℕ):ℚ)) 0
    rw [Nat.cast_zero, mul_zero, sub_zero, max_eq_left (abs_nonneg _)]
  | succ n ih =>
    obtain ⟨ihd, ihx1, ihx2, ihT⟩ := ih
    rw [Function.iterate_succ_apply']
    have hstep := updatePosition_seek (updatePosition^[n] s) ihx1 ihx2
      (by rw [ihT]; exact ht1) (by rw [ihT]; exact ht2)
    obtain ⟨hd1, hb1, hb2⟩ := hstep
    rw [ihT] at hd1
    have hT' : (updatePosition (updatePosition^[n] s)).targetX = s.targetX := by
      rw [updatePosition_targetX, ihT]
    refine ⟨?_, hb1, hb2, hT'⟩
    rw [hd1, ihd]
    rcases le_or_lt (speed * (n:ℚ)) |s.targetX - s.x| with hc | hc
    · have hinner : max (|s.targetX - s.x| - speed * (n:ℚ)) 0 =
          |s.targetX - s.x| - speed * (n:ℚ) := max_eq_left (by linarith)
      rw [hinner, Nat.cast_succ]
      congr 1
      ring
    · have hinner : max (|s.targetX - s.x| - speed * (n:ℚ)) 0 = 0 :=
        max_eq_right (by linarith)
      have hL : max ((0:ℚ) - speed) 0 = 0 := max_eq_right (by linarith)
      have hR : max (|s.targetX - s.x| - speed * ((n:ℕ) + 1 : ℚ)) 0 = 0 :=
        max_eq_right (by nlinarith)
      rw [hinner, hL, Nat.cast_succ, hR]

/-- C2: from an in-bounds start at positive distance `d` from an in-bounds
target, the actor's X reaches the target exactly after `⌈d / speed⌉` ticks
(a positive count), is not at the target on any earlier tick, and after `k`
ticks the remaining distance is exactly `max (d - speed * k) 0` — each
non-final tick reduces the distance by exactly `speed`, and the final tick
snaps with no overshoot. -/
theorem updatePosition_convergence (s : SpriteState)
    (hx1 : cellSize ≤ s.x) (hx2 : s.x ≤ worldWidth - cellSize)
    (ht1 : cellSize ≤ s.targetX) (ht2 : s.targetX ≤ worldWidth - cellSize)
    (hd : 0 < |s.targetX - s.x|) :
    0 < (⌈|s.targetX - s.x| / speed⌉).toNat ∧
    (updatePosition^[(⌈|s.targetX - s.x| / speed⌉).toNat] s).x = s.targetX ∧
    (∀ k : ℕ, k < (⌈|s.targetX - s.x| / speed⌉).toNat →
      (updatePosition^[k] s).x ≠ s.targetX) ∧
    (∀ k : ℕ, |s.targetX - (updatePosition^[k] s).x| =
      max (|s.targetX - s.x| - speed * k) 0) := by
  have hsp : (0:ℚ) < speed := by norm_num [speed]
  have hceil_pos : 0 < ⌈|s.targetX - s.x| / speed⌉ :=
    Int.ceil_pos.mpr (div_pos hd hsp)
  have hn : ((⌈|s.targetX - s.x| / speed⌉).toNat : ℤ) = ⌈|s.targetX - s.x| / speed⌉ :=
    Int.toNat_of_nonneg hceil_pos.le
  refine ⟨by omega, ?_, ?_, fun k => (updatePosition_seek_iter s hx1 hx2 ht1 ht2 k).1⟩
  · have hit := (updatePosition_seek_iter s hx1 hx2 ht1 ht2
      (⌈|s.targetX - s.x| / speed⌉).toNat).1
    have hle : |s.targetX - s.x| ≤
        ((⌈|s.targetX - s.x| / speed⌉).toNat : ℚ) * speed := by
      have h1 : |s.targetX - s.x| / speed ≤ ((⌈|s.targetX - s.x| / speed⌉ : ℤ) : ℚ) :=
        Int.le_ceil _
      have h2 : (((⌈|s.targetX - s.x| / speed⌉).toNat : ℤ) : ℚ) =
          ((⌈|s.targetX - s.x| / speed⌉ : ℤ) : ℚ) := by exact_mod_cast congrArg Int.cast hn
      rw [← h2] at h1
      push_cast at h1
      exact (div_le_iff hsp).mp h1
    have hzero : |s.targetX - (updatePosition^[(⌈|s.targetX - s.x| / speed⌉).toNat] s).x| = 0 := by
      rw [hit, max_eq_right (by linarith)]
    have := abs_eq_zero.mp hzero
    linarith [sub_eq_zero.mp this, this]
  · intro k hk
    have hklt : (k:ℚ) < |s.targetX - s.x| / speed := by
      have hkz : (k:ℤ) < ⌈|s.targetX - s.x| / speed⌉ := by omega
      exact_mod_cast Int.lt_ceil.mp hkz
    have h5k : speed * (k:ℚ) < |s.targetX - s.x| := by
      have := (lt_div_iff hsp).mp hklt
      linarith
    have hit := (updatePosition_seek_iter s hx1 hx2 ht1 ht2 k).1
    intro hEq
    rw [hEq, sub_self, abs_zero] at hit
    have hpos : (0:ℚ) < max (|s.targetX - s.x| - speed * (k:ℚ)) 0 :=
      lt_max_of_lt_left (by linarith)
    linarith [hit, hpos]

/-- A concrete in-bounds seek scenario: start at world centre `x = 2400`
with target `2413`, distance 13, so `⌈13 / 5⌉ = 3` ticks. -/
def seekState : SpriteState := { initState with targetX := 2413 }

/-- Witness for C2 at `seekState`. -/
theorem updatePosition_convergence_witness :
    (cellSize ≤ seekState.x ∧ seekState.x ≤ worldWidth - cellSize ∧
      cellSize ≤ seekState.targetX ∧ seekState.targetX ≤ worldWidth - cellSize ∧
      0 < |seekState.targetX - seekState.x|) ∧
    0 < (⌈|seekState.targetX - seekState.x| / speed⌉).toNat ∧
    (updatePosition^[(⌈|seekState.targetX - seekState.x| / speed⌉).toNat] seekState).x
      = seekState.targetX := by
  have h1 : cellSize ≤ seekState.x := by
    norm_num [seekState, initState, cellSize, WORLD_COLS]
  have h2 : seekState.x ≤ worldWidth - cellSize := by
    norm_num [seekState, initState, cellSize, WORLD_COLS, worldWidth]
  have h3 : cellSize ≤ seekState.targetX := by
    norm_num [seekState, initState, cellSize]
  have h4 : seekState.targetX ≤ worldWidth - cellSize := by
    norm_num [seekState, initState, cellSize, WORLD_COLS, worldWidth]
  have h5 : 0 < |seekState.targetX - seekState.x| := by
    rw [abs_pos]
    norm_num [seekState, initState, cellSize, WORLD_COLS]
  have hmain := updatePosition_convergence seekState h1 h2 h3 h4 h5
  exact ⟨⟨h1, h2, h3, h4, h5⟩, hmain.1, hmain.2.1⟩

/-! ### C4: projectile expiry -/

theorem starStep_run (st : StarState) (ha : st.active = true) (hv : 0 < st.vx)
    (hx0 : 0 ≤ st.x) (n : ℕ)
    (hn2 : ∀ k : ℕ, k < n → (k : ℚ) * st.vx ≤ worldWidth - st.x) :
    ∀ k : ℕ, k < n → starStep^[k] st = { st with x := st.x + k * st.vx } := by
  intro k
  induction k with
  | zero =>
    intro _
    show st = _
    rw [Nat.cast_zero, zero_mul, add_zero]
  | succ m ih =>
    intro hlt
    have hm := ih (lt_trans (Nat.lt_succ_self m) hlt)
    rw [Function.iterate_succ_apply', hm]
    unfold starStep
    dsimp only
    rw [if_pos ha]
    have hxk : st.x + (m:ℚ) * st.vx + st.vx = st.x + ((m+1:ℕ):ℚ) * st.vx := by
      push_cast
      ring
    have hub : st.x + ((m+1:ℕ):ℚ) * st.vx ≤ worldWidth := by
      have := hn2 (m+1) hlt
      linarith
    have hlb : 0 ≤ st.x + ((m+1:ℕ):ℚ) * st.vx := by
      have : (0:ℚ) ≤ ((m+1:ℕ):ℚ) * st.vx :=
        mul_nonneg (by positivity) hv.le
      linarith
    have hw : WORLD_COLS * cellSize = worldWidth := rfl
    rw [hxk]
    rw [if_neg ?_]
    rw [hw]
    push_neg
    exact ⟨by linarith, by linarith⟩

/-- C4, amended: an active projectile with `velocityX > 0` at `x₀` inside the
world becomes inactive after exactly the least tick count `n` with
`x₀ + n · velocityX > worldWidthPixels` (the world-exit test is strict):
it is still active after any fewer ticks and inactive after `n`. This is
`⌈(worldWidth − x₀) / velocityX⌉` except when `velocityX` exactly divides
`worldWidth − x₀`, where one extra tick is required. -/
theorem star_expiry (s : SpriteState) (n : ℕ) (ha : s.star.active = true)
    (hv : 0 < s.star.vx) (hx0 : 0 ≤ s.star.x) (hxW : s.star.x ≤ worldWidth)
    (hn1 : worldWidth - s.star.x < (n : ℚ) * s.star.vx)
    (hn2 : ∀ k : ℕ, k < n → (k : ℚ) * s.star.vx ≤ worldWidth - s.star.x) :
    (∀ k : ℕ, k < n → (updatePosition^[k] s).star.active = true) ∧
    (updatePosition^[n] s).star.active = false := by
  have hrun := starStep_run s.star ha hv hx0 n hn2
  constructor
  · intro k hk
    rw [updatePosition_star_iter, hrun k hk]
    exact ha
  · have hn0 : n ≠ 0 := by
      rintro rfl
      rw [Nat.cast_zero, zero_mul] at hn1
      linarith
    obtain ⟨m, rfl⟩ := Nat.exists_eq_succ_of_ne_zero hn0
    rw [updatePosition_star_iter, Function.iterate_succ_apply',
      hrun m (Nat.lt_succ_self m)]
    unfold starStep
    dsimp only
    rw [if_pos ha]
    have hgt : s.star.x + (m:ℚ) * s.star.vx + s.star.vx > WORLD_COLS * cellSize := by
      have hw : WORLD_COLS * cellSize = worldWidth := rfl
      rw [hw]
      push_cast at hn1
      linarith
    rw [if_pos (Or.inr hgt)]

/-- A star one cell-step short of the right world edge: `x = 4788`,
`vx = 12`, so one tick lands exactly on `x = 4800 = worldWidth`. -/
def boundaryState : SpriteState :=
  { initState with star := { active := true, x := 4788, y := 816, vx := 12, size := 32 } }

/-- C4, counterexample: at `x₀ = 4788`, `vx = 12`, the claimed count is
`⌈(4800 − 4788)/12⌉ = 1`, but after 1 tick the star sits exactly at
`x = 4800`, which is not strictly outside `[0, worldWidth]`, so it is still
active. -/
theorem star_expiry_cex :
    boundaryState.star.active = true ∧ 0 < boundaryState.star.vx ∧
    ⌈(worldWidth - boundaryState.star.x) / boundaryState.star.vx⌉ = 1 ∧
    (updatePosition^[1] boundaryState).star.active = true := by
  refine ⟨rfl, by norm_num [boundaryState, initState], ?_, ?_⟩
  · have h1 : (worldWidth - boundaryState.star.x) / boundaryState.star.vx = 1 := by
      norm_num [boundaryState, initState, worldWidth, WORLD_COLS, cellSize]
    rw [h1, Int.ceil_one]
  · rw [Function.iterate_one, updatePosition_star]
    norm_num [starStep, boundaryState, initState, WORLD_COLS, cellSize]

/-- Witness for C4's amended theorem: the same boundary star expires after
exactly 2 ticks. -/
theorem star_expiry_witness :
    boundaryState.star.active = true ∧
    (updatePosition^[2] boundaryState).star.active = false :=
  ⟨rfl,
    (star_expiry boundaryState 2 rfl
      (by norm_num [boundaryState, initState])
      (by norm_num [boundaryState, initState])
      (by norm_num [boundaryState, initState, worldWidth, WORLD_COLS, cellSize])
      (by norm_num [boundaryState, initState, worldWidth, WORLD_COLS, cellSize])
      (by
        intro k hk
        interval_cases k <;>
          norm_num [boundaryState, initState, worldWidth, WORLD_COLS, cellSize])).2⟩

/-- Witness for C10's per-tick Y characterisation: one state where the jump
continues (Y is ground plus the pre-gravity velocity) and one where the actor
is grounded. -/
theorem clampToWorld_forces_ground_witness :
    (updatePosition (startJump initState)).y = groundY + (startJump initState).vy ∧
    (updatePosition initState).y = groundY := by
  constructor
  · refine (clampToWorld_forces_ground.2 (startJump initState)).1 ?_
    have h := updatePosition_vj (startJump initState)
    have hs : ((startJump initState).vy, (startJump initState).isJumping) = (-22, true) := by
      norm_num [startJump, initState, jumpStrength]
    rw [hs] at h
    have hv : vjStep (-22, true) = (-22 + gravity, true) := by
      norm_num [vjStep, groundY, WORLD_ROWS, cellSize]
    rw [hv] at h
    exact congrArg Prod.snd h
  · refine (clampToWorld_forces_ground.2 initState).2 ?_
    have h := updatePosition_vj initState
    have hs : (initState.vy, initState.isJumping) = (0, false) := rfl
    rw [hs] at h
    have hv : vjStep (0, false) = (0, false) := by norm_num [vjStep]
    rw [hv] at h
    exact congrArg Prod.snd h
